import Mathlib

/-
Verification of the CorneaReader eye-feature extraction pipeline
(src/classes/cornea.py) and the trainer split (src/train.py).

The embedding models grayscale frames as height/width plus a pixel lookup,
exact rational arithmetic in place of Python floats (every concrete value
the theorems below touch is dyadic, where float and rational agree), and
Python `int()` as truncation toward zero.  The face-landmark detector is a
black box: `readEyes` receives its output (an optional list of normalized
landmark points) as an argument.  File-system state for a capture session
is a list of named sample files; a missing session directory is `none`.
-/

namespace Cornea

/-- A single-channel (grayscale) image: pixel-grid dimensions plus a pixel lookup. -/
structure Image where
  height : ℕ
  width : ℕ
  pix : ℕ → ℕ → ℕ

/-- A three-channel BGR color image as delivered by the camera. -/
structure ColorImage where
  height : ℕ
  width : ℕ
  pix : ℕ → ℕ → ℕ × ℕ × ℕ

/-- Constant `CorneaReader.LEFT_EYE`: the 16 landmark indices of the left-eye contour. -/
def LEFT_EYE : List ℕ :=
  [362, 382, 381, 380, 374, 373, 390, 249, 263, 466, 388, 387, 386, 385, 384, 398]

/-- Constant `CorneaReader.RIGHT_EYE`: the 16 landmark indices of the right-eye contour. -/
def RIGHT_EYE : List ℕ :=
  [133, 33, 7, 163, 144, 145, 153, 154, 155, 173, 157, 158, 159, 160, 161, 246]

/-- Constant `CorneaReader.LEFT_IRIS_CENTER`. -/
def LEFT_IRIS_CENTER : ℕ := 473

/-- Constant `CorneaReader.RIGHT_IRIS_CENTER`. -/
def RIGHT_IRIS_CENTER : ℕ := 468

/-- Constant `CorneaReader.EYESTRIP`: the 32 landmark indices bounding the eye-strip crop. -/
def EYESTRIP : List ℕ :=
  [27, 28, 56, 190, 243, 112, 26, 22, 23, 24, 110, 25, 130, 247, 30, 29, 257, 259,
   260, 467, 359, 255, 339, 254, 253, 252, 256, 341, 463, 414, 286, 258]

/-- Constant `CorneaReader.TARGET = [40, 130]`: target height 40, target width 130. -/
def TARGET : List ℕ := [40, 130]

/-- Python `int(...)`: truncation toward zero of an exact rational. -/
def pyInt (q : ℚ) : ℤ := if 0 ≤ q then ⌊q⌋ else ⌈q⌉

/-- Normalization of a Python/numpy slice endpoint against axis length `n`
(negative indices count from the end, everything is clamped into `[0, n]`). -/
def npClamp (n : ℕ) (i : ℤ) : ℕ := (if i < 0 then max 0 ((n : ℤ) + i) else min i n).toNat

/-- Model of `cv2.flip(frame, 1)`: mirror the frame horizontally. -/
def flip (frame : ColorImage) : ColorImage :=
  ⟨frame.height, frame.width, fun y x => frame.pix y (frame.width - 1 - x)⟩

/-- Model of `cv2.cvtColor(frame, cv2.COLOR_BGR2GRAY)`: weighted channel average,
dimensions preserved. -/
def cvtGray (frame : ColorImage) : Image :=
  ⟨frame.height, frame.width, fun y x =>
    (299 * (frame.pix y x).2.2 + 587 * (frame.pix y x).2.1 + 114 * (frame.pix y x).1) / 1000⟩

/-- Scaling of the detector's normalized landmarks to integer pixel coordinates:
`np.multiply([p.x, p.y], [imgWidth, imgHeigh]).astype(int)`. -/
def meshOf (h w : ℕ) (lms : List (ℚ × ℚ)) : List (ℤ × ℤ) :=
  lms.map (fun p => (pyInt (p.1 * w), pyInt (p.2 * h)))

/-- Method `CorneaReader.__visualize`: draw small filled circles at the two iris
centers; pixel dimensions are untouched. -/
def visualize (frame : Image) (leftCenter rightCenter : ℤ × ℤ) : Image :=
  ⟨frame.height, frame.width, fun y x =>
    if (leftCenter.1 - (x : ℤ)).natAbs ≤ 2 ∧ (leftCenter.2 - (y : ℤ)).natAbs ≤ 2 then 255
    else if (rightCenter.1 - (x : ℤ)).natAbs ≤ 2 ∧ (rightCenter.2 - (y : ℤ)).natAbs ≤ 2 then 255
    else frame.pix y x⟩

/-- Method `CorneaReader.__cropEye`: slice the frame to the bounding box
`frame[minY:maxY, minX:maxX]` of the EYESTRIP landmark coordinates. -/
def cropEye (frame : Image) (meshPoints : List (ℤ × ℤ)) : Image :=
  let coords := EYESTRIP.map (fun i => meshPoints.getD i (0, 0))
  let xs := coords.map Prod.fst
  let ys := coords.map Prod.snd
  let maxX := xs.foldl max (xs.headD 0)
  let minX := xs.foldl min (xs.headD 0)
  let maxY := ys.foldl max (ys.headD 0)
  let minY := ys.foldl min (ys.headD 0)
  ⟨npClamp frame.height maxY - npClamp frame.height minY,
   npClamp frame.width maxX - npClamp frame.width minX,
   fun y x => frame.pix (npClamp frame.height minY + y) (npClamp frame.width minX + x)⟩

/-- Value of `heightPerc` after the two assignments in `resizeAspectRatio`:
`(TARGET[0] - shape[0]) * 100 / TARGET[0]`. -/
def heightPercOf (h : ℕ) : ℚ := ((TARGET.getD 0 0 : ℚ) - h) * 100 / (TARGET.getD 0 0 : ℚ)

/-- Value of `widthPerc` after the two assignments in `resizeAspectRatio`:
`(TARGET[1] - shape[1]) * 100 / TARGET[1]`. -/
def widthPercOf (w : ℕ) : ℚ := ((TARGET.getD 1 0 : ℚ) - w) * 100 / (TARGET.getD 1 0 : ℚ)

/-- The `scale_percent` selection: `heightPerc` when `heightPerc < widthPerc`,
otherwise `widthPerc`. -/
def scalePercent (h w : ℕ) : ℚ :=
  if heightPercOf h < widthPercOf w then heightPercOf h else widthPercOf w

/-- The `(height, width)` passed to `cv2.resize`:
`shape + int(TARGET * scale_percent / 100)` on each axis. -/
def resizeDims (h w : ℕ) : ℤ × ℤ :=
  ((h : ℤ) + pyInt ((TARGET.getD 0 0 : ℚ) * scalePercent h w / 100),
   (w : ℤ) + pyInt ((TARGET.getD 1 0 : ℚ) * scalePercent h w / 100))

/-- Model of `cv2.resize(image, (width, height))`: an image of exactly the requested
dimensions, sampling the source grid. -/
def cv2resize (image : Image) (width height : ℕ) : Image :=
  ⟨height, width, fun y x => image.pix (y * image.height / height) (x * image.width / width)⟩

/-- Method `CorneaReader.paddingRestOfImage`: pad bottom/right with zero (black) pixels
up to `TARGET`; `cv2.copyMakeBorder` raises on a negative border, hence `none`. -/
def paddingRestOfImage (image : Image) : Option Image :=
  if 0 ≤ (TARGET.getD 0 0 : ℤ) - image.height ∧ 0 ≤ (TARGET.getD 1 0 : ℤ) - image.width then
    some ⟨image.height + ((TARGET.getD 0 0 : ℤ) - image.height).toNat,
          image.width + ((TARGET.getD 1 0 : ℤ) - image.width).toNat,
          fun y x => if y < image.height ∧ x < image.width then image.pix y x else 0⟩
  else none

/-- Method `CorneaReader.resizeAspectRatio`: compute the scaled dimensions, resize
(`cv2.resize` raises on an empty source or a non-positive requested size,
hence `none`), then pad up to `TARGET`. -/
def resizeAspectRatio (image : Image) : Option Image :=
  if 0 < image.height ∧ 0 < image.width ∧
      0 < (resizeDims image.height image.width).1 ∧ 0 < (resizeDims image.height image.width).2 then
    paddingRestOfImage
      (cv2resize image (resizeDims image.height image.width).2.toNat
        (resizeDims image.height image.width).1.toNat)
  else none

/-- Model of `np.linalg.norm` of the difference of two integer points: the Euclidean
distance. -/
noncomputable def euclid (p q : ℤ × ℤ) : ℝ :=
  Real.sqrt (((p.1 - q.1 : ℤ) : ℝ) ^ 2 + ((p.2 - q.2 : ℤ) : ℝ) ^ 2)

/-- The `eyesMetrics` array built in `readEyes`: the 16 left-eye distances to
the left iris center, then the 16 right-eye distances to the right iris
center, then the single inter-eye distance, concatenated in that order. -/
noncomputable def computeFeatures (meshPoints : List (ℤ × ℤ)) : List ℝ :=
  let leftIrisDistances :=
    LEFT_EYE.map (fun i => euclid (meshPoints.getD i (0, 0)) (meshPoints.getD LEFT_IRIS_CENTER (0, 0)))
  let rightIrisDistances :=
    RIGHT_EYE.map (fun i => euclid (meshPoints.getD i (0, 0)) (meshPoints.getD RIGHT_IRIS_CENTER (0, 0)))
  let middleEyeDistance :=
    euclid (meshPoints.getD (RIGHT_EYE.getD 0 0) (0, 0)) (meshPoints.getD (LEFT_EYE.getD 0 0) (0, 0))
  leftIrisDistances ++ rightIrisDistances ++ [middleEyeDistance]

/-- One persisted sample file `data/<session>/<name>.npz` with its three named
arrays. -/
structure DataFile where
  name : ℕ
  eyesMetrics : List ℝ
  croppedFrame : Image
  mousePos : ℤ × ℤ

/-- Method `CorneaReader.__saveDataArray` acting on the session directory
(`none` = directory missing): `os.listdir` raising `FileNotFoundError` leaves
`i = 0` and `os.mkdir` creates the directory; otherwise `i` is the number of
files already present.  `np.savez` then writes (or overwrites) file `i`.
Returns the new directory contents and the index written. -/
def saveDataArray (eyesMetrics : List ℝ) (croppedFrame : Image) (mousePos : ℤ × ℤ) :
    Option (List DataFile) → List DataFile × ℕ
  | none => ([⟨0, eyesMetrics, croppedFrame, mousePos⟩], 0)
  | some fs =>
      (fs.filter (fun f => f.name != fs.length) ++
        [⟨fs.length, eyesMetrics, croppedFrame, mousePos⟩], fs.length)

/-- The mirrored, grayscale frame with the two iris centers drawn on it. -/
def annotatedFrame (frame : ColorImage) (lms : List (ℚ × ℚ)) : Image :=
  visualize (cvtGray (flip frame))
    ((meshOf frame.height frame.width lms).getD LEFT_IRIS_CENTER (0, 0))
    ((meshOf frame.height frame.width lms).getD RIGHT_IRIS_CENTER (0, 0))

/-- The eye-strip crop at its native post-crop resolution, exactly as it is
handed to `__saveDataArray` (before any resizing). -/
def rawCrop (frame : ColorImage) (lms : List (ℚ × ℚ)) : Image :=
  cropEye (annotatedFrame frame lms) (meshOf frame.height frame.width lms)

/-- What one `readEyes` call produces: the optional `(eyesMetrics, resized
crop)` pair, the processed full frame, the session directory afterwards, and
the name of the file written (if any). -/
structure ReadResult where
  result : Option (List ℝ × Image)
  frame : Image
  dirState : Option (List DataFile)
  savedIndex : Option ℕ

/-- Method `CorneaReader.readEyes`.  The detector is a black box, so its output (the
optional normalized landmark list of the first face) is an argument, as are
the current mouse position and the session directory contents.  `saveDir`
records whether a session name was supplied.  The whole call returns `none`
when `cv2.resize` raises on the cropped eye strip. -/
noncomputable def readEyes (frame : ColorImage) (detection : Option (List (ℚ × ℚ)))
    (mousePos : ℤ × ℤ) (saveDir : Bool) (dirState : Option (List DataFile)) :
    Option ReadResult :=
  match detection with
  | none => some ⟨none, cvtGray (flip frame), dirState, none⟩
  | some lms =>
      let eyesMetrics := computeFeatures (meshOf frame.height frame.width lms)
      let save :=
        if saveDir then some (saveDataArray eyesMetrics (rawCrop frame lms) mousePos dirState)
        else none
      match resizeAspectRatio (rawCrop frame lms) with
      | none => none
      | some resized =>
          some ⟨some (eyesMetrics, resized), annotatedFrame frame lms,
            (save.map (fun s => some s.1)).getD dirState, save.map Prod.snd⟩

/-- Repeated captures into one session: each sample is saved with
`__saveDataArray` into the directory produced by the previous capture. -/
def captureAll (samples : List (List ℝ × Image × (ℤ × ℤ))) (fs0 : List DataFile) :
    List DataFile :=
  samples.foldl (fun fs s => (saveDataArray s.1 s.2.1 s.2.2 (some fs)).1) fs0

/-- Method `CorneaReader.preProcess`: load every file of the session directory and
rebuild the three parallel arrays, resizing each stored crop to `(120, 40)`.
`numpy` raises when a stored feature row cannot fill a 33-slot row and
`cv2.resize` raises on an empty stored crop, hence the guard. -/
def preProcess (files : List DataFile) :
    Option (List (List ℝ) × List Image × List (ℤ × ℤ)) :=
  if files.all (fun f =>
      f.eyesMetrics.length == 33 && f.croppedFrame.height != 0 && f.croppedFrame.width != 0) then
    some (files.map (fun f => f.eyesMetrics),
          files.map (fun f => cv2resize f.croppedFrame 120 40),
          files.map (fun f => f.mousePos))
  else none

/-- Modelled from the spec: `train_test_split` is scikit-learn library code
that is not part of this repository; the spec describes the trainer as
performing "a single random 70/30 train/test split with a fixed seed" on a
matrix of known row count.  With `test_size = 0.3` the test partition
receives `⌈0.3 n⌉` rows and the train partition the remaining rows.
Returns `(train rows, test rows)`. -/
def splitCounts (n : ℕ) : ℕ × ℕ :=
  (n - (⌈3 * (n : ℚ) / 10⌉).toNat, (⌈3 * (n : ℚ) / 10⌉).toNat)

/-- The scale-selection policy exactly as the claim under test words it:
percentages computed toward a 40×120 target box, choosing the axis requiring
less scaling (the smaller magnitude). -/
def claimedScalePercent (h w : ℕ) : ℚ :=
  let hp := ((40 : ℚ) - h) * 100 / 40
  let wp := ((120 : ℚ) - w) * 100 / 120
  if |hp| ≤ |wp| then hp else wp

/-- A placeholder empty image (used only as the default of `Option.getD`). -/
def emptyImage : Image := ⟨0, 0, fun _ _ => 0⟩

/-- A concrete 100×200 camera frame used to exercise the pipeline. -/
def demoFrame : ColorImage := ⟨100, 200, fun _ _ => (0, 0, 0)⟩

/-- A second frame of the same dimensions with different pixel content. -/
def demoFrame2 : ColorImage := ⟨100, 200, fun _ _ => (9, 9, 9)⟩

/-- A concrete normalized landmark list (indices beyond it read as the
origin). -/
def demoLms : List (ℚ × ℚ) :=
  [(0/100, 0/100), (1/100, 1/100), (2/100, 2/100), (3/100, 3/100), (4/100, 4/100),
   (5/100, 5/100), (6/100, 6/100), (7/100, 7/100), (8/100, 8/100), (9/100, 9/100),
   (10/100, 10/100), (11/100, 11/100), (12/100, 12/100), (13/100, 13/100),
   (14/100, 14/100), (15/100, 15/100), (16/100, 16/100), (17/100, 17/100),
   (18/100, 18/100), (19/100, 19/100), (20/100, 20/100), (21/100, 21/100),
   (22/100, 22/100), (23/100, 23/100), (24/100, 24/100), (25/100, 25/100),
   (26/100, 26/100), (27/100, 27/100), (28/100, 28/100), (29/100, 29/100),
   (30/100, 30/100)]

/-- The pixel mesh points the demo landmarks scale to on a 100×200 frame. -/
def demoMeshPts : List (ℤ × ℤ) :=
  [(0, 0), (2, 1), (4, 2), (6, 3), (8, 4), (10, 5), (12, 6), (14, 7), (16, 8),
   (18, 9), (20, 10), (22, 11), (24, 12), (26, 13), (28, 14), (30, 15), (32, 16),
   (34, 17), (36, 18), (38, 19), (40, 20), (42, 21), (44, 22), (46, 23), (48, 24),
   (50, 25), (52, 26), (54, 27), (56, 28), (58, 29), (60, 30)]

/-- The result of the successful demo run without a session name. -/
noncomputable def demoRes : ReadResult :=
  (readEyes demoFrame (some demoLms) (0, 0) false none).getD ⟨none, emptyImage, none, none⟩

/-- The feature/eye-image pair of the demo run. -/
noncomputable def demoPair : List ℝ × Image := demoRes.result.getD ([], emptyImage)

/-- The result of the demo run capturing into an existing empty session. -/
noncomputable def demoResSave : ReadResult :=
  (readEyes demoFrame (some demoLms) (5, 7) true (some [])).getD ⟨none, emptyImage, none, none⟩

/-- The result of the demo run capturing into a missing session directory. -/
noncomputable def demoResNew : ReadResult :=
  (readEyes demoFrame (some demoLms) (5, 7) true none).getD ⟨none, emptyImage, none, none⟩

/-- The files a list of captured samples becomes, numbered from `n`. -/
def buildFiles (n : ℕ) : List (List ℝ × Image × (ℤ × ℤ)) → List DataFile
  | [] => []
  | s :: rest => ⟨n, s.1, s.2.1, s.2.2⟩ :: buildFiles (n + 1) rest

/-- A concrete non-empty crop for exercising the resize/padding pipeline. -/
def demoImg : Image := ⟨50, 80, fun _ _ => 3⟩

/-- A small concrete image stored inside demo capture samples. -/
def demoImgA : Image := ⟨2, 3, fun _ _ => 1⟩

/-- Two concrete capture samples (33-element metrics, crop, cursor position). -/
noncomputable def demoSamples : List (List ℝ × Image × (ℤ × ℤ)) :=
  [(List.replicate 33 0, demoImgA, (5, 6)), (List.replicate 33 1, demoImgA, (7, 8))]

lemma target0 : TARGET.getD 0 0 = 40 := rfl

lemma target1 : TARGET.getD 1 0 = 130 := rfl

lemma pyInt_intCast (n : ℤ) : pyInt ((n : ℚ)) = n := by
  unfold pyInt
  split
  · exact Int.floor_intCast n
  · exact Int.ceil_intCast n

lemma pyInt_le_of_le (q : ℚ) (B : ℤ) (h : q ≤ (B : ℚ)) : pyInt q ≤ B := by
  unfold pyInt
  split
  · calc ⌊q⌋ ≤ ⌊(B : ℚ)⌋ := Int.floor_mono h
      _ = B := Int.floor_intCast B
  · exact Int.ceil_le.mpr h

/-- When the height percentage is selected, the resized height is exactly 40;
either way it never exceeds 40. -/
lemma resizeDims_fst_le (h w : ℕ) : (resizeDims h w).1 ≤ 40 := by
  unfold resizeDims scalePercent
  simp only [target0, target1]
  by_cases hc : heightPercOf h < widthPercOf w
  · rw [if_pos hc]
    have e : ((40 : ℕ) : ℚ) * heightPercOf h / 100 = (((40 - (h : ℤ)) : ℤ) : ℚ) := by
      unfold heightPercOf
      simp only [target0]
      push_cast
      ring
    rw [e, pyInt_intCast]
    omega
  · rw [if_neg hc]
    have hle : widthPercOf w ≤ heightPercOf h := not_lt.mp hc
    have key : ((40 : ℕ) : ℚ) * widthPercOf w / 100 ≤ (((40 - (h : ℤ)) : ℤ) : ℚ) := by
      unfold heightPercOf widthPercOf at *
      simp only [target0, target1] at *
      push_cast at *
      linarith
    have := pyInt_le_of_le _ _ key
    omega

/-- When the width percentage is selected, the resized width is exactly 130;
either way it never exceeds 130. -/
lemma resizeDims_snd_le (h w : ℕ) : (resizeDims h w).2 ≤ 130 := by
  unfold resizeDims scalePercent
  simp only [target0, target1]
  by_cases hc : heightPercOf h < widthPercOf w
  · rw [if_pos hc]
    have key : ((130 : ℕ) : ℚ) * heightPercOf h / 100 ≤ (((130 - (w : ℤ)) : ℤ) : ℚ) := by
      unfold heightPercOf widthPercOf at *
      simp only [target0, target1] at *
      push_cast at *
      linarith
    have := pyInt_le_of_le _ _ key
    omega
  · rw [if_neg hc]
    have e : ((130 : ℕ) : ℚ) * widthPercOf w / 100 = (((130 - (w : ℤ)) : ℤ) : ℚ) := by
      unfold widthPercOf
      simp only [target1]
      push_cast
      ring
    rw [e, pyInt_intCast]
    omega

/-- Any image that `resizeAspectRatio` does return has exactly the TARGET
shape: height 40 and width 130. -/
lemma resizeAspectRatio_shape (a out : Image)
    (hmem : resizeAspectRatio a = some out) : out.height = 40 ∧ out.width = 130 := by
  unfold resizeAspectRatio at hmem
  by_cases hc : 0 < a.height ∧ 0 < a.width ∧
      0 < (resizeDims a.height a.width).1 ∧ 0 < (resizeDims a.height a.width).2
  · rw [if_pos hc] at hmem
    obtain ⟨h1, h2, h3, h4⟩ := hc
    have e1 := resizeDims_fst_le a.height a.width
    have e2 := resizeDims_snd_le a.height a.width
    unfold paddingRestOfImage cv2resize at hmem
    simp only [target0, target1] at hmem
    rw [if_pos (by constructor <;> omega)] at hmem
    cases hmem
    constructor <;> simp <;> omega
  · rw [if_neg hc] at hmem
    cases hmem

/-- Lemma: `resizeAspectRatio` succeeds exactly when the source is non-empty and both
computed resize dimensions are positive. -/
lemma resizeAspectRatio_isSome (a : Image) :
    ( resizeAspectRatio a).isSome = true ↔
      0 < a.height ∧ 0 < a.width ∧
        0 < (resizeDims a.height a.width).1 ∧ 0 < (resizeDims a.height a.width).2 := by
  unfold resizeAspectRatio
  by_cases hc : 0 < a.height ∧ 0 < a.width ∧
      0 < (resizeDims a.height a.width).1 ∧ 0 < (resizeDims a.height a.width).2
  · rw [if_pos hc]
    obtain ⟨h1, h2, h3, h4⟩ := hc
    have e1 := resizeDims_fst_le a.height a.width
    have e2 := resizeDims_snd_le a.height a.width
    unfold paddingRestOfImage cv2resize
    simp only [target0, target1]
    rw [if_pos (by constructor <;> omega)]
    simpa using ⟨h1, h2, h3, h4⟩
  · rw [if_neg hc]
    simpa using hc

lemma demoMesh : meshOf 100 200 demoLms = demoMeshPts := by
  simp only [demoLms, meshOf, List.map_cons, List.map_nil, demoMeshPts]
  norm_num [pyInt]

lemma demoRawCrop :
    rawCrop demoFrame demoLms = cropEye (annotatedFrame demoFrame demoLms) demoMeshPts := by
  unfold rawCrop
  rw [show meshOf demoFrame.height demoFrame.width demoLms = demoMeshPts from demoMesh]

set_option maxRecDepth 4000 in
lemma demoCrop_height : (rawCrop demoFrame demoLms).height = 30 := by
  rw [demoRawCrop]
  decide

set_option maxRecDepth 4000 in
lemma demoCrop_width : (rawCrop demoFrame demoLms).width = 60 := by
  rw [demoRawCrop]
  decide

lemma demoResizeDims : resizeDims 30 60 = (40, 92) := by
  unfold resizeDims scalePercent heightPercOf widthPercOf
  simp only [target0, target1]
  norm_num [pyInt]

lemma demoResizeOk :
    0 < (rawCrop demoFrame demoLms).height ∧ 0 < (rawCrop demoFrame demoLms).width ∧
      0 < (resizeDims (rawCrop demoFrame demoLms).height (rawCrop demoFrame demoLms).width).1 ∧
      0 < (resizeDims (rawCrop demoFrame demoLms).height (rawCrop demoFrame demoLms).width).2 := by
  rw [demoCrop_height, demoCrop_width, demoResizeDims]
  norm_num

set_option maxHeartbeats 1000000 in
/-- Anatomy of a successful `readEyes` call on a detected face: the resize
succeeded, the feature vector is `computeFeatures` of the mesh points, the
returned eye image is the resized crop, the processed frame is the annotated
grayscale frame, and saving happened exactly when a session name was given. -/
lemma readEyes_some_spec (frame : ColorImage) (lms : List (ℚ × ℚ)) (mpos : ℤ × ℤ)
    (sd : Bool) (st : Option (List DataFile)) (res : ReadResult)
    (h : readEyes frame (some lms) mpos sd st = some res) :
    ∃ resized, resizeAspectRatio (rawCrop frame lms) = some resized ∧
      res = ⟨some (computeFeatures (meshOf frame.height frame.width lms), resized),
        annotatedFrame frame lms,
        if sd then
          some (saveDataArray (computeFeatures (meshOf frame.height frame.width lms))
            (rawCrop frame lms) mpos st).1
        else st,
        if sd then
          some (saveDataArray (computeFeatures (meshOf frame.height frame.width lms))
            (rawCrop frame lms) mpos st).2
        else none⟩ := by
  simp only [readEyes] at h
  generalize hc : resizeAspectRatio (rawCrop frame lms) = o at h
  cases o with
  | none => cases h
  | some r =>
      refine ⟨r, rfl, ?_⟩
      cases h
      cases sd <;> rfl

/-- A `readEyes` call on a detected face succeeds whenever the crop is
non-empty and the computed resize dimensions are positive. -/
lemma readEyes_isSome (frame : ColorImage) (lms : List (ℚ × ℚ)) (mpos : ℤ × ℤ)
    (sd : Bool) (st : Option (List DataFile))
    (hok : 0 < (rawCrop frame lms).height ∧ 0 < (rawCrop frame lms).width ∧
      0 < (resizeDims (rawCrop frame lms).height (rawCrop frame lms).width).1 ∧
      0 < (resizeDims (rawCrop frame lms).height (rawCrop frame lms).width).2) :
    (readEyes frame (some lms) mpos sd st).isSome = true := by
  have hs : ( resizeAspectRatio (rawCrop frame lms)).isSome = true :=
    (resizeAspectRatio_isSome _).mpr hok
  simp only [readEyes]
  generalize hc : resizeAspectRatio (rawCrop frame lms) = o at hs ⊢
  cases o with
  | none => cases hs
  | some r => rfl

lemma demoRes_mem : demoRes ∈ readEyes demoFrame (some demoLms) (0, 0) false none := by
  obtain ⟨v, hv⟩ := Option.isSome_iff_exists.mp
    (readEyes_isSome demoFrame demoLms (0, 0) false none demoResizeOk)
  unfold demoRes
  rw [Option.mem_def, hv]
  rfl

lemma demoResSave_mem : demoResSave ∈ readEyes demoFrame (some demoLms) (5, 7) true (some []) := by
  obtain ⟨v, hv⟩ := Option.isSome_iff_exists.mp
    (readEyes_isSome demoFrame demoLms (5, 7) true (some []) demoResizeOk)
  unfold demoResSave
  rw [Option.mem_def, hv]
  rfl

lemma demoResNew_mem : demoResNew ∈ readEyes demoFrame (some demoLms) (5, 7) true none := by
  obtain ⟨v, hv⟩ := Option.isSome_iff_exists.mp
    (readEyes_isSome demoFrame demoLms (5, 7) true none demoResizeOk)
  unfold demoResNew
  rw [Option.mem_def, hv]
  rfl

lemma demoRes_result_isSome : demoRes.result.isSome = true := by
  obtain ⟨resized, _, he⟩ :=
    readEyes_some_spec demoFrame demoLms (0, 0) false none demoRes
      (Option.mem_def.mp demoRes_mem)
  rw [he]
  rfl

lemma demoPair_mem : demoPair ∈ demoRes.result := by
  obtain ⟨v, hv⟩ := Option.isSome_iff_exists.mp demoRes_result_isSome
  unfold demoPair
  rw [Option.mem_def, hv]
  rfl

/-- C6: for every frame in which the detector finds zero faces, `readEyes`
returns an absent (`none`) feature result together with the processed
(mirrored, grayscale) frame, and that processed frame has the same pixel
height and width as the mirrored input frame. -/
theorem readEyes_no_face (frame : ColorImage) (mpos : ℤ × ℤ) (sd : Bool)
    (st : Option (List DataFile)) :
    readEyes frame none mpos sd st = some ⟨none, cvtGray (flip frame), st, none⟩ ∧
      (cvtGray (flip frame)).height = (flip frame).height ∧
      (cvtGray (flip frame)).width = (flip frame).width :=
  ⟨rfl, rfl, rfl⟩

/-- C4: there is a non-empty cropped image — 200 pixels high, 100 wide — for
which the computed output width `image_width + int(TARGET[1] * scale_percent
/ 100)` is negative (it is −420), so `cv2.resize` cannot produce a valid
image and `resizeAspectRatio` fails even though a face was detected. -/
theorem resize_negative_width_exists :
    (resizeDims 200 100).2 = -420 ∧ (resizeDims 200 100).2 < 0 ∧
      resizeAspectRatio ⟨200, 100, fun _ _ => 0⟩ = none := by
  have hd : resizeDims 200 100 = (40, -420) := by
    unfold resizeDims scalePercent heightPercOf widthPercOf
    simp only [target0, target1]
    norm_num [pyInt, Int.ceil_neg]
  refine ⟨by rw [hd], by rw [hd]; norm_num, ?_⟩
  unfold resizeAspectRatio
  apply if_neg
  rintro ⟨-, -, -, h4⟩
  have h4x : (0 : ℤ) < (resizeDims 200 100).2 := h4
  rw [hd] at h4x
  norm_num at h4x

/-- C3 counterexample: on an 80×140 crop the selected scale percentage is the
height axis's −100 even though the width axis requires less scaling
(`|widthPerc| < |heightPerc|`), and it also differs from the percentage the
claim prescribes toward a 40×120 target box. -/
theorem scale_selection_counterexample :
    scalePercent 80 140 = -100 ∧ claimedScalePercent 80 140 = -50 / 3 ∧
      scalePercent 80 140 ≠ claimedScalePercent 80 140 ∧
      |widthPercOf 140| < |heightPercOf 80| := by
  have h1 : scalePercent 80 140 = -100 := by
    unfold scalePercent heightPercOf widthPercOf
    simp only [target0, target1]
    norm_num
  have h2 : claimedScalePercent 80 140 = -50 / 3 := by
    unfold claimedScalePercent
    norm_num [abs_le, abs_lt]
  refine ⟨h1, h2, ?_, ?_⟩
  · rw [h1, h2]
    norm_num
  · unfold heightPercOf widthPercOf
    simp only [target0, target1]
    norm_num [abs_lt]

/-- C3 (amended): `resizeAspectRatio` computes, independently for each axis,
the signed percentage of shrink or grow needed to reach the target box of
height 40 and width 130 (not 120), and applies as the scale percentage the
smaller signed value of the two — which, when both axes need shrinking, is
the axis requiring the more aggressive shrink — before padding the remainder
with black pixels. -/
theorem scale_selection_min_percent (h w : ℕ) :
    scalePercent h w = min (heightPercOf h) (widthPercOf w) ∧
      resizeDims h w = ((h : ℤ) + pyInt (40 * min (heightPercOf h) (widthPercOf w) / 100),
        (w : ℤ) + pyInt (130 * min (heightPercOf h) (widthPercOf w) / 100)) := by
  have hmin : scalePercent h w = min (heightPercOf h) (widthPercOf w) := by
    unfold scalePercent
    by_cases hc : heightPercOf h < widthPercOf w
    · rw [if_pos hc, min_eq_left hc.le]
    · rw [if_neg hc, min_eq_right (not_lt.mp hc)]
  refine ⟨hmin, ?_⟩
  unfold resizeDims
  rw [hmin]
  simp only [target0, target1]
  norm_num

/-- C10: a fixed-seed 70/30 train/test split of a matrix with `n` rows: the
train and test row counts sum to `n`, and each matches its share of the
70/30 ratio to within one row (rounding). -/
theorem train_split_counts (n : ℕ) :
    (splitCounts n).1 + (splitCounts n).2 = n ∧
      |((splitCounts n).2 : ℚ) - 3 * n / 10| < 1 ∧
      |((splitCounts n).1 : ℚ) - 7 * n / 10| < 1 := by
  have h0 : (0 : ℚ) ≤ 3 * n / 10 := by positivity
  have hc0 : 0 ≤ ⌈3 * (n : ℚ) / 10⌉ := Int.ceil_nonneg h0
  have hcle : ⌈3 * (n : ℚ) / 10⌉ ≤ (n : ℤ) := by
    apply Int.ceil_le.mpr
    push_cast
    have : (0 : ℚ) ≤ n := Nat.cast_nonneg n
    linarith
  have htoNat : ((⌈3 * (n : ℚ) / 10⌉.toNat : ℤ)) = ⌈3 * (n : ℚ) / 10⌉ :=
    Int.toNat_of_nonneg hc0
  have htle : ⌈3 * (n : ℚ) / 10⌉.toNat ≤ n := by omega
  have hup := Int.ceil_lt_add_one (3 * (n : ℚ) / 10)
  have hlo := Int.le_ceil (3 * (n : ℚ) / 10)
  have hcast : ((⌈3 * (n : ℚ) / 10⌉.toNat : ℚ)) = ((⌈3 * (n : ℚ) / 10⌉ : ℤ) : ℚ) := by
    exact_mod_cast congrArg (fun z => ((z : ℤ) : ℚ)) htoNat
  refine ⟨by unfold splitCounts; omega, ?_, ?_⟩
  · unfold splitCounts
    rw [abs_lt]
    constructor <;> simp only [hcast] <;> linarith
  · unfold splitCounts
    rw [abs_lt]
    have hsub : ((n - ⌈3 * (n : ℚ) / 10⌉.toNat : ℕ) : ℚ) =
        (n : ℚ) - ((⌈3 * (n : ℚ) / 10⌉.toNat : ℚ)) := by
      push_cast [Nat.cast_sub htle]
      ring
    constructor <;> rw [hsub] <;> simp only [hcast] <;> linarith

/-- C5: for every non-empty input image whose computed resize dimensions are
both positive, `resizeAspectRatio` (the resize followed by
`paddingRestOfImage`) returns an image of exactly the TARGET shape — height
40 and width 130 — and both the bottom and the right padding amounts are
non-negative. -/
theorem resize_pad_target_shape (img : Image) (h1 : 0 < img.height) (h2 : 0 < img.width)
    (h3 : 0 < (resizeDims img.height img.width).1)
    (h4 : 0 < (resizeDims img.height img.width).2) :
    (∃ out, resizeAspectRatio img = some out ∧ out.height = 40 ∧ out.width = 130) ∧
      0 ≤ (40 : ℤ) - (resizeDims img.height img.width).1 ∧
      0 ≤ (130 : ℤ) - (resizeDims img.height img.width).2 := by
  have e1 := resizeDims_fst_le img.height img.width
  have e2 := resizeDims_snd_le img.height img.width
  have hsome : ( resizeAspectRatio img).isSome = true :=
    (resizeAspectRatio_isSome img).mpr ⟨h1, h2, h3, h4⟩
  obtain ⟨out, hout⟩ := Option.isSome_iff_exists.mp hsome
  obtain ⟨hh, hw⟩ := resizeAspectRatio_shape img out hout
  exact ⟨⟨out, hout, hh, hw⟩, by omega, by omega⟩

/-- C5 witness: the concrete 50×80 crop satisfies the hypotheses and is
resized and padded to exactly 40×130. -/
theorem resize_pad_target_shape_witness :
    0 < demoImg.height ∧ 0 < demoImg.width ∧
      0 < (resizeDims demoImg.height demoImg.width).1 ∧
      0 < (resizeDims demoImg.height demoImg.width).2 ∧
      (∃ out, resizeAspectRatio demoImg = some out ∧ out.height = 40 ∧ out.width = 130) := by
  have hd : resizeDims demoImg.height demoImg.width = (40, 48) := by
    show resizeDims 50 80 = (40, 48)
    unfold resizeDims scalePercent heightPercOf widthPercOf
    simp only [target0, target1]
    norm_num [pyInt, Int.ceil_neg]
  have hx1 : 0 < demoImg.height := by decide
  have hx2 : 0 < demoImg.width := by decide
  have hx3 : 0 < (resizeDims demoImg.height demoImg.width).1 := by rw [hd]; norm_num
  have hx4 : 0 < (resizeDims demoImg.height demoImg.width).2 := by rw [hd]; norm_num
  exact ⟨hx1, hx2, hx3, hx4, (resize_pad_target_shape demoImg hx1 hx2 hx3 hx4).1⟩

/-- C1 (amended): whenever `readEyes` returns on a frame with a detected
face, the cropped, resized and padded eye image it returns has exactly
height 40 and width 130 — the TARGET width is 130, not 120, and the call
only returns when the computed resize dimensions are positive. -/
theorem readEyes_eye_target_shape (frame : ColorImage) (lms : List (ℚ × ℚ))
    (mpos : ℤ × ℤ) (sd : Bool) (st : Option (List DataFile)) :
    ∀ res ∈ readEyes frame (some lms) mpos sd st, ∀ p ∈ res.result,
      p.2.height = 40 ∧ p.2.width = 130 := by
  intro res hres p hp
  obtain ⟨resized, hr, he⟩ :=
    readEyes_some_spec frame lms mpos sd st res (Option.mem_def.mp hres)
  subst he
  rw [Option.mem_def] at hp
  have hp2 : some (computeFeatures (meshOf frame.height frame.width lms), resized) = some p := hp
  cases hp2
  exact resizeAspectRatio_shape _ _ hr

/-- C1 witness: the demo run returns, with a detected face, an eye image of
height 40 and width 130. -/
theorem readEyes_eye_target_shape_witness :
    demoRes ∈ readEyes demoFrame (some demoLms) (0, 0) false none ∧
      demoPair ∈ demoRes.result ∧ demoPair.2.height = 40 ∧ demoPair.2.width = 130 :=
  ⟨demoRes_mem, demoPair_mem,
    readEyes_eye_target_shape demoFrame demoLms (0, 0) false none
      demoRes demoRes_mem demoPair demoPair_mem⟩

/-- C1 counterexample: the demo frame has a detected face, `readEyes`
returns, and the eye image it returns has width 130, not the claimed 120. -/
theorem readEyes_eye_width_not_120 :
    demoRes ∈ readEyes demoFrame (some demoLms) (0, 0) false none ∧
      demoPair ∈ demoRes.result ∧ demoPair.2.width = 130 ∧ demoPair.2.width ≠ 120 := by
  have h130 : demoPair.2.width = 130 := by
    obtain ⟨resized, hr, he⟩ :=
      readEyes_some_spec demoFrame demoLms (0, 0) false none demoRes
        (Option.mem_def.mp demoRes_mem)
    have hp := Option.mem_def.mp demoPair_mem
    rw [he] at hp
    have hp2 : some (computeFeatures (meshOf demoFrame.height demoFrame.width demoLms),
        resized) = some demoPair := hp
    have heq := Option.some.inj hp2
    rw [← heq]
    exact (resizeAspectRatio_shape _ _ hr).2
  refine ⟨demoRes_mem, demoPair_mem, h130, by rw [h130]; norm_num⟩

/-- C2: for every successful `readEyes` call on a frame with a detected face,
the returned feature vector has exactly 33 elements in the fixed order — the
16 left-eye point-to-left-iris-center distances, then the 16 right-eye
point-to-right-iris-center distances, then the single inter-eye distance
between the two eyes' first contour points — and that inter-eye element is
non-negative. -/
theorem readEyes_feature_vector (frame : ColorImage) (lms : List (ℚ × ℚ))
    (mpos : ℤ × ℤ) (sd : Bool) (st : Option (List DataFile)) :
    ∀ res ∈ readEyes frame (some lms) mpos sd st, ∀ p ∈ res.result,
      p.1.length = 33 ∧
      p.1.take 16 = LEFT_EYE.map (fun i =>
        euclid ((meshOf frame.height frame.width lms).getD i (0, 0))
          ((meshOf frame.height frame.width lms).getD LEFT_IRIS_CENTER (0, 0))) ∧
      (p.1.drop 16).take 16 = RIGHT_EYE.map (fun i =>
        euclid ((meshOf frame.height frame.width lms).getD i (0, 0))
          ((meshOf frame.height frame.width lms).getD RIGHT_IRIS_CENTER (0, 0))) ∧
      p.1.drop 32 =
        [euclid ((meshOf frame.height frame.width lms).getD (RIGHT_EYE.getD 0 0) (0, 0))
          ((meshOf frame.height frame.width lms).getD (LEFT_EYE.getD 0 0) (0, 0))] ∧
      0 ≤ euclid ((meshOf frame.height frame.width lms).getD (RIGHT_EYE.getD 0 0) (0, 0))
          ((meshOf frame.height frame.width lms).getD (LEFT_EYE.getD 0 0) (0, 0)) := by
  intro res hres p hp
  obtain ⟨resized, hr, he⟩ :=
    readEyes_some_spec frame lms mpos sd st res (Option.mem_def.mp hres)
  subst he
  rw [Option.mem_def] at hp
  have hp2 : some (computeFeatures (meshOf frame.height frame.width lms), resized)
      = some p := hp
  cases hp2
  exact ⟨rfl, rfl, rfl, rfl, Real.sqrt_nonneg _⟩

/-- C2 witness: the demo run returns a 33-element feature vector whose
inter-eye element is non-negative. -/
theorem readEyes_feature_vector_witness :
    demoRes ∈ readEyes demoFrame (some demoLms) (0, 0) false none ∧
      demoPair ∈ demoRes.result ∧ demoPair.1.length = 33 ∧
      0 ≤ euclid ((meshOf demoFrame.height demoFrame.width demoLms).getD (RIGHT_EYE.getD 0 0) (0, 0))
        ((meshOf demoFrame.height demoFrame.width demoLms).getD (LEFT_EYE.getD 0 0) (0, 0)) := by
  have h := readEyes_feature_vector demoFrame demoLms (0, 0) false none
    demoRes demoRes_mem demoPair demoPair_mem
  exact ⟨demoRes_mem, demoPair_mem, h.1, h.2.2.2.2⟩

/-- C7: with a session name supplied and a face detected, a returning
`readEyes` call persists the sample before resizing — one file whose name is
the count of files already present in the session directory, holding the crop
at its native post-crop resolution (not the resized/padded version), the
feature vector, and the mouse cursor position — and a missing session
directory is created on the first write, receiving exactly that file named 0. -/
theorem readEyes_persists_native_crop (frame : ColorImage) (lms : List (ℚ × ℚ))
    (mpos : ℤ × ℤ) (fs : List DataFile) :
    (∀ res ∈ readEyes frame (some lms) mpos true (some fs),
        res.savedIndex = some fs.length ∧
        ∃ fs2, res.dirState = some fs2 ∧
          fs2.getLast? = some ⟨fs.length,
            computeFeatures (meshOf frame.height frame.width lms), rawCrop frame lms, mpos⟩) ∧
      (∀ res ∈ readEyes frame (some lms) mpos true none,
        res.savedIndex = some 0 ∧
        res.dirState = some [⟨0, computeFeatures (meshOf frame.height frame.width lms),
          rawCrop frame lms, mpos⟩]) := by
  constructor
  · intro res hres
    obtain ⟨resized, hr, he⟩ :=
      readEyes_some_spec frame lms mpos true (some fs) res (Option.mem_def.mp hres)
    subst he
    refine ⟨rfl, ⟨_, rfl, ?_⟩⟩
    show ((saveDataArray (computeFeatures (meshOf frame.height frame.width lms))
      (rawCrop frame lms) mpos (some fs)).1).getLast? = _
    simp only [saveDataArray]
    exact List.getLast?_concat _
  · intro res hres
    obtain ⟨resized, hr, he⟩ :=
      readEyes_some_spec frame lms mpos true none res (Option.mem_def.mp hres)
    subst he
    exact ⟨rfl, rfl⟩

/-- C7 witness: the demo capture into an existing empty session writes file
0 with the native crop, and the capture into a missing session directory
creates it with exactly that file. -/
theorem readEyes_persists_native_crop_witness :
    demoResSave ∈ readEyes demoFrame (some demoLms) (5, 7) true (some []) ∧
      demoResNew ∈ readEyes demoFrame (some demoLms) (5, 7) true none ∧
      (demoResSave.savedIndex = some ([] : List DataFile).length ∧
        ∃ fs2, demoResSave.dirState = some fs2 ∧
          fs2.getLast? = some ⟨([] : List DataFile).length,
            computeFeatures (meshOf demoFrame.height demoFrame.width demoLms),
            rawCrop demoFrame demoLms, (5, 7)⟩) ∧
      (demoResNew.savedIndex = some 0 ∧
        demoResNew.dirState = some [⟨0,
          computeFeatures (meshOf demoFrame.height demoFrame.width demoLms),
          rawCrop demoFrame demoLms, (5, 7)⟩]) := by
  have h := readEyes_persists_native_crop demoFrame demoLms (5, 7) []
  exact ⟨demoResSave_mem, demoResNew_mem, h.1 demoResSave demoResSave_mem,
    h.2 demoResNew demoResNew_mem⟩

lemma saveDataArray_fresh (m : List ℝ) (c : Image) (p : ℤ × ℤ) (fs : List DataFile)
    (hfs : fs.map (fun f => f.name) = List.range fs.length) :
    (saveDataArray m c p (some fs)).1 = fs ++ [⟨fs.length, m, c, p⟩] := by
  simp only [saveDataArray]
  have hid : fs.filter (fun f => f.name != fs.length) = fs := by
    apply List.filter_eq_self.mpr
    intro f hf
    have hmem : f.name ∈ fs.map (fun f => f.name) := List.mem_map_of_mem _ hf
    rw [hfs] at hmem
    have := List.mem_range.mp hmem
    simp only [bne_iff_ne, ne_eq]
    omega
  rw [hid]

lemma captureAll_eq (samples : List (List ℝ × Image × (ℤ × ℤ))) :
    ∀ fs : List DataFile, fs.map (fun f => f.name) = List.range fs.length →
      captureAll samples fs = fs ++ buildFiles fs.length samples := by
  induction samples with
  | nil =>
      intro fs _
      simp [captureAll, buildFiles]
  | cons s rest ih =>
      intro fs hfs
      have hsave := saveDataArray_fresh s.1 s.2.1 s.2.2 fs hfs
      have hstep : captureAll (s :: rest) fs =
          captureAll rest ((saveDataArray s.1 s.2.1 s.2.2 (some fs)).1) := rfl
      rw [hstep, hsave]
      have hfs2 : (fs ++ [(⟨fs.length, s.1, s.2.1, s.2.2⟩ : DataFile)]).map (fun f => f.name) =
          List.range (fs ++ [(⟨fs.length, s.1, s.2.1, s.2.2⟩ : DataFile)]).length := by
        simp [hfs, List.range_succ]
      rw [ih (fs ++ [(⟨fs.length, s.1, s.2.1, s.2.2⟩ : DataFile)]) hfs2]
      simp [buildFiles, List.append_assoc]

lemma buildFiles_names (l : List (List ℝ × Image × (ℤ × ℤ))) :
    ∀ n, (buildFiles n l).map (fun f => f.name) = List.range' n l.length := by
  induction l with
  | nil => intro n; simp [buildFiles]
  | cons s rest ih =>
      intro n
      rw [List.length_cons, List.range'_succ]
      simp [buildFiles, ih]

lemma buildFiles_length (l : List (List ℝ × Image × (ℤ × ℤ))) :
    ∀ n, (buildFiles n l).length = l.length := by
  induction l with
  | nil => intro n; rfl
  | cons s rest ih => intro n; simp [buildFiles, ih]

lemma buildFiles_mem (l : List (List ℝ × Image × (ℤ × ℤ))) :
    ∀ n f, f ∈ buildFiles n l →
      ∃ s ∈ l, f.eyesMetrics = s.1 ∧ f.croppedFrame = s.2.1 := by
  induction l with
  | nil => intro n f hf; cases hf
  | cons s rest ih =>
      intro n f hf
      rcases List.mem_cons.mp hf with h | h
      · exact ⟨s, List.mem_cons_self s rest, by rw [h], by rw [h]⟩
      · obtain ⟨t, ht, he⟩ := ih (n + 1) f h
        exact ⟨t, List.mem_cons_of_mem s ht, he⟩

/-- C8: capturing N samples into a fresh (initially empty) session directory
produces exactly N files named by the indices 0 through N−1, and
`preProcess` on that directory returns three arrays whose first dimension is
N — N feature rows of 33 entries, N images of exactly 40×120, and N cursor
positions. -/
theorem capture_preProcess_shapes (samples : List (List ℝ × Image × (ℤ × ℤ)))
    (h33 : ∀ s ∈ samples, s.1.length = 33)
    (hne : ∀ s ∈ samples, s.2.1.height ≠ 0 ∧ s.2.1.width ≠ 0) :
    (captureAll samples []).map (fun f => f.name) = List.range samples.length ∧
      (captureAll samples []).length = samples.length ∧
      ∃ metrics frames positions,
        preProcess (captureAll samples []) = some (metrics, frames, positions) ∧
        metrics.length = samples.length ∧ frames.length = samples.length ∧
        positions.length = samples.length ∧
        (∀ row ∈ metrics, row.length = 33) ∧
        (∀ img ∈ frames, img.height = 40 ∧ img.width = 120) := by
  have hcap : captureAll samples [] = buildFiles 0 samples := by
    have h := captureAll_eq samples [] (by simp)
    simpa using h
  rw [hcap]
  have hnames := buildFiles_names samples 0
  have hlen := buildFiles_length samples 0
  refine ⟨?_, hlen, ?_⟩
  · rw [hnames, List.range_eq_range']
  · have hall : (buildFiles 0 samples).all (fun f =>
        f.eyesMetrics.length == 33 && f.croppedFrame.height != 0 &&
          f.croppedFrame.width != 0) = true := by
      rw [List.all_eq_true]
      intro f hf
      obtain ⟨s, hs, he1, he2⟩ := buildFiles_mem samples 0 f hf
      have hm := h33 s hs
      have hn := hne s hs
      simp [he1, he2, hm, hn.1, hn.2]
    unfold preProcess
    rw [if_pos hall]
    refine ⟨_, _, _, rfl, by simp [hlen], by simp [hlen], by simp [hlen], ?_, ?_⟩
    · intro row hrow
      obtain ⟨f, hf, hfe⟩ := List.mem_map.mp hrow
      obtain ⟨s, hs, he1, _⟩ := buildFiles_mem samples 0 f hf
      rw [← hfe, he1]
      exact h33 s hs
    · intro img himg
      obtain ⟨f, hf, hfe⟩ := List.mem_map.mp himg
      rw [← hfe]
      exact ⟨rfl, rfl⟩

/-- C8 witness: two concrete captured samples produce files named 0 and 1,
and `preProcess` rebuilds arrays of first dimension 2. -/
theorem capture_preProcess_shapes_witness :
    (∀ s ∈ demoSamples, s.1.length = 33) ∧
      (∀ s ∈ demoSamples, s.2.1.height ≠ 0 ∧ s.2.1.width ≠ 0) ∧
      ((captureAll demoSamples []).map (fun f => f.name) = List.range demoSamples.length ∧
        (captureAll demoSamples []).length = demoSamples.length ∧
        ∃ metrics frames positions,
          preProcess (captureAll demoSamples []) = some (metrics, frames, positions) ∧
          metrics.length = demoSamples.length ∧ frames.length = demoSamples.length ∧
          positions.length = demoSamples.length ∧
          (∀ row ∈ metrics, row.length = 33) ∧
          (∀ img ∈ frames, img.height = 40 ∧ img.width = 120)) := by
  have h33 : ∀ s ∈ demoSamples, s.1.length = 33 := by
    intro s hs
    rcases List.mem_cons.mp hs with h | h
    · rw [h]; simp
    · rcases List.mem_cons.mp h with h2 | h2
      · rw [h2]; simp
      · cases h2
  have hne : ∀ s ∈ demoSamples, s.2.1.height ≠ 0 ∧ s.2.1.width ≠ 0 := by
    intro s hs
    rcases List.mem_cons.mp hs with h | h
    · rw [h]; exact ⟨by simp [demoImgA], by simp [demoImgA]⟩
    · rcases List.mem_cons.mp h with h2 | h2
      · rw [h2]; exact ⟨by simp [demoImgA], by simp [demoImgA]⟩
      · cases h2
  exact ⟨h33, hne, capture_preProcess_shapes demoSamples h33 hne⟩

lemma readEyes_metrics_proj (frame : ColorImage) (lms : List (ℚ × ℚ)) (mpos : ℤ × ℤ)
    (sd : Bool) (st : Option (List DataFile)) :
    (readEyes frame (some lms) mpos sd st).map (fun r => r.result.map Prod.fst) =
      ( resizeAspectRatio (rawCrop frame lms)).map
        (fun _ => some (computeFeatures (meshOf frame.height frame.width lms))) := by
  simp only [readEyes]
  generalize resizeAspectRatio (rawCrop frame lms) = o
  cases o with
  | none => rfl
  | some r => rfl

/-- C9: the returned feature vector is a pure, deterministic function of the
landmark point set alone — two `readEyes` calls with the same detected
landmarks on frames of equal dimensions but arbitrary pixel content (and any
mouse position, session flag and directory state) return identical feature
vectors, and each returned vector equals `computeFeatures` of the mesh
points, so the visualization drawing does not affect the numeric data. -/
theorem readEyes_features_pure (f1 f2 : ColorImage) (lms : List (ℚ × ℚ))
    (m1 m2 : ℤ × ℤ) (sd1 sd2 : Bool) (st1 st2 : Option (List DataFile))
    (hh : f1.height = f2.height) (hw : f1.width = f2.width) :
    (readEyes f1 (some lms) m1 sd1 st1).map (fun r => r.result.map Prod.fst) =
      (readEyes f2 (some lms) m2 sd2 st2).map (fun r => r.result.map Prod.fst) ∧
      ∀ res ∈ readEyes f1 (some lms) m1 sd1 st1, ∀ p ∈ res.result,
        p.1 = computeFeatures (meshOf f1.height f1.width lms) := by
  constructor
  · obtain ⟨H1, W1, p1⟩ := f1
    obtain ⟨H2, W2, p2⟩ := f2
    dsimp only at hh hw
    subst hh
    subst hw
    rw [readEyes_metrics_proj, readEyes_metrics_proj]
    have i1 := resizeAspectRatio_isSome (rawCrop ⟨H1, W1, p1⟩ lms)
    have i2 := resizeAspectRatio_isSome (rawCrop ⟨H1, W1, p2⟩ lms)
    have hhc : (rawCrop (⟨H1, W1, p1⟩ : ColorImage) lms).height =
        (rawCrop (⟨H1, W1, p2⟩ : ColorImage) lms).height := rfl
    have hwc : (rawCrop (⟨H1, W1, p1⟩ : ColorImage) lms).width =
        (rawCrop (⟨H1, W1, p2⟩ : ColorImage) lms).width := rfl
    rw [hhc, hwc] at i1
    by_cases hc : 0 < (rawCrop (⟨H1, W1, p2⟩ : ColorImage) lms).height ∧
        0 < (rawCrop (⟨H1, W1, p2⟩ : ColorImage) lms).width ∧
        0 < (resizeDims (rawCrop (⟨H1, W1, p2⟩ : ColorImage) lms).height
          (rawCrop (⟨H1, W1, p2⟩ : ColorImage) lms).width).1 ∧
        0 < (resizeDims (rawCrop (⟨H1, W1, p2⟩ : ColorImage) lms).height
          (rawCrop (⟨H1, W1, p2⟩ : ColorImage) lms).width).2
    · obtain ⟨o1, ho1⟩ := Option.isSome_iff_exists.mp (i1.mpr hc)
      obtain ⟨o2, ho2⟩ := Option.isSome_iff_exists.mp (i2.mpr hc)
      rw [ho1, ho2]
      rfl
    · have n1 : resizeAspectRatio (rawCrop (⟨H1, W1, p1⟩ : ColorImage) lms) = none := by
        rcases h1 : resizeAspectRatio (rawCrop (⟨H1, W1, p1⟩ : ColorImage) lms) with _ | v
        · rfl
        · exact absurd (i1.mp (by rw [h1]; rfl)) hc
      have n2 : resizeAspectRatio (rawCrop (⟨H1, W1, p2⟩ : ColorImage) lms) = none := by
        rcases h2 : resizeAspectRatio (rawCrop (⟨H1, W1, p2⟩ : ColorImage) lms) with _ | v
        · rfl
        · exact absurd (i2.mp (by rw [h2]; rfl)) hc
      rw [n1, n2]
  · intro res hres p hp
    obtain ⟨resized, hr, he⟩ :=
      readEyes_some_spec f1 lms m1 sd1 st1 res (Option.mem_def.mp hres)
    subst he
    rw [Option.mem_def] at hp
    have hp2 : some (computeFeatures (meshOf f1.height f1.width lms), resized)
        = some p := hp
    cases hp2
    rfl

/-- C9 witness: the two demo frames agree in dimensions but not in pixels,
and the two runs (also differing in mouse position, session flag and
directory state) return the same feature data. -/
theorem readEyes_features_pure_witness :
    demoFrame.height = demoFrame2.height ∧ demoFrame.width = demoFrame2.width ∧
      (readEyes demoFrame (some demoLms) (0, 0) false none).map
          (fun r => r.result.map Prod.fst) =
        (readEyes demoFrame2 (some demoLms) (1, 2) true (some [])).map
          (fun r => r.result.map Prod.fst) :=
  ⟨rfl, rfl,
    (readEyes_features_pure demoFrame demoFrame2 demoLms (0, 0) (1, 2) false true
      none (some []) rfl rfl).1⟩

end Cornea
